import Mathlib

/-!
Verification of the field-based search core of the DOV tutorial repository:
FieldCatalog, QueryBuilder, the FeatureFetcher collaborator contract and the
ResultAssembler pagination/merge algorithm.  The repository ships only the
notebooks and documents that call this core, so the core itself is modelled
from the specification text, definition by definition.
-/

namespace DovSearch

/-- Modelled from the spec: the enumeration of scalar data types a Field can
declare (`data_type: enum{string, integer, float, date, boolean}`); the
implementing library is not part of the repository sources. -/
inductive DataType
  | string
  | integer
  | float
  | date
  | boolean
deriving DecidableEq

/-- Modelled from the spec: a catalog entry
`{name, definition, data_type, nullable, queryable, retrieval_cost}`;
the implementing library is not part of the repository sources. -/
structure Field where
  name : String
  description : String
  data_type : DataType
  nullable : Bool
  queryable : Bool
  retrieval_cost : Nat
deriving DecidableEq

/-- Modelled from the spec: a FieldCatalog is an ordered mapping from field
name to Field, kept here as the ordered list of fields (declaration order). -/
abbrev FieldCatalog := List Field

/-- Modelled from the spec: read-only lookup of a field by name in the
catalog (`get(name)`), `none` when absent. -/
def fcLookup (c : FieldCatalog) (n : String) : Option Field :=
  c.find? (fun f => f.name == n)

/-- Modelled from the spec and the notebook's `get_fields()`: the mapping
from field name to field record, in declaration order. -/
def get_fields (c : FieldCatalog) : List (String × Field) :=
  c.map (fun f => (f.name, f))

/-- Modelled from the spec: a typed literal sitting at a predicate leaf.
Float and date literals are carried by their source text; the core never
computes with them, it only checks their declared type. -/
inductive Lit
  | str (s : String)
  | int (i : Int)
  | flt (s : String)
  | date (s : String)
  | bool (b : Bool)
deriving DecidableEq

/-- The data type a literal is declared with. -/
def Lit.dtype : Lit → DataType
  | .str _ => .string
  | .int _ => .integer
  | .flt _ => .float
  | .date _ => .date
  | .bool _ => .boolean

/-- Modelled from the spec: the comparison operators of leaf nodes
(equality, ordering, pattern-match-with-wildcard). -/
inductive CmpOp
  | eq
  | notEq
  | lt
  | le
  | gt
  | ge
  | like
deriving DecidableEq

/-- Modelled from the spec: a FilterPredicate is a tree of typed
comparison/logical nodes (leaf comparison, null-check, and/or/not). -/
inductive Pred
  | cmp (op : CmpOp) (field : String) (lit : Lit)
  | isNull (field : String)
  | and (p q : Pred)
  | or (p q : Pred)
  | not (p : Pred)
deriving DecidableEq

/-- The leaves of a predicate, in tree order: each leaf is a referenced
field name together with the literal, if the leaf carries one. -/
def Pred.leaves : Pred → List (String × Option Lit)
  | .cmp _ f lit => [(f, some lit)]
  | .isNull f => [(f, none)]
  | .and p q => p.leaves ++ q.leaves
  | .or p q => p.leaves ++ q.leaves
  | .not p => p.leaves

/-- Leaves of an optional predicate (absent predicate means match-all,
hence no leaves). -/
def leavesOf : Option Pred → List (String × Option Lit)
  | none => []
  | some p => p.leaves

/-- Modelled from the spec: the local, deterministic validation errors of
QueryBuilder (`UnknownField`, `NotQueryable`, `TypeMismatch`). -/
inductive QueryError
  | UnknownField (f : String)
  | NotQueryable (f : String)
  | TypeMismatch (f : String)
deriving DecidableEq

/-- Modelled from the spec: the immutable request descriptor
`{predicate, max_results, requested_fields}`. -/
structure QueryRequest where
  predicate : Option Pred
  max_results : Option Nat
  requested_fields : Option (List String)
deriving DecidableEq

/-- Rule 1 violation: the leaf names a field absent from the catalog. -/
def leafUnknown (c : FieldCatalog) (l : String × Option Lit) : Bool :=
  (fcLookup c l.1).isNone

/-- Rule 2 violation: the leaf names a catalog field with `queryable=false`. -/
def leafNotQueryable (c : FieldCatalog) (l : String × Option Lit) : Bool :=
  match fcLookup c l.1 with
  | some f => !f.queryable
  | none => false

/-- Rule 3 violation: the leaf carries a literal whose declared type differs
from the catalog field's `data_type`. -/
def leafTypeMismatch (c : FieldCatalog) (l : String × Option Lit) : Bool :=
  match l.2, fcLookup c l.1 with
  | some lit, some f => lit.dtype != f.data_type
  | _, _ => false

/-- Rule 4 violation: the first requested field name that is not in the
catalog, when `requested_fields` is given. -/
def reqUnknown (c : FieldCatalog) (rf : Option (List String)) : Option String :=
  (rf.getD []).find? (fun n => (fcLookup c n).isNone)

/-- Modelled from the spec: `QueryBuilder.build` — pure construction of a
QueryRequest, checking the four validation rules in order, failing fast
with the error of the first violated rule; the implementing library is not
part of the repository sources. -/
def build (c : FieldCatalog) (pred : Option Pred) (mr : Option Nat)
    (rf : Option (List String)) : Except QueryError QueryRequest :=
  match (leavesOf pred).find? (leafUnknown c) with
  | some l => .error (.UnknownField l.1)
  | none =>
    match (leavesOf pred).find? (leafNotQueryable c) with
    | some l => .error (.NotQueryable l.1)
    | none =>
      match (leavesOf pred).find? (leafTypeMismatch c) with
      | some l => .error (.TypeMismatch l.1)
      | none =>
        match reqUnknown c rf with
        | some n => .error (.UnknownField n)
        | none => .ok ⟨pred, mr, rf⟩

/-- True exactly when the result is an `UnknownField` error. -/
def isUnknownErr {α : Type} : Except QueryError α → Bool
  | .error (.UnknownField _) => true
  | _ => false

/-- True exactly when the result is a `NotQueryable` error. -/
def isNotQueryableErr {α : Type} : Except QueryError α → Bool
  | .error (.NotQueryable _) => true
  | _ => false

/-- True exactly when the result is a `TypeMismatch` error. -/
def isTypeMismatchErr {α : Type} : Except QueryError α → Bool
  | .error (.TypeMismatch _) => true
  | _ => false

/-- A nonempty run of decimal digits. -/
def digits1 (cs : List Char) : Bool :=
  !cs.isEmpty && cs.all Char.isDigit

/-- Integer source text: an optional leading minus sign, then digits. -/
def isIntString (s : String) : Bool :=
  match s.toList with
  | '-' :: rest => digits1 rest
  | cs => digits1 cs

/-- Decimal source text: digits, optionally followed by a point and digits. -/
def floatChars (cs : List Char) : Bool :=
  match cs.span Char.isDigit with
  | (ip, []) => !ip.isEmpty
  | (ip, '.' :: fp) => !ip.isEmpty && digits1 fp
  | _ => false

/-- Float source text: an optional leading minus sign, then a decimal body. -/
def isFloatString (s : String) : Bool :=
  match s.toList with
  | '-' :: rest => floatChars rest
  | cs => floatChars cs

/-- Boolean source text. -/
def isBoolString (s : String) : Bool :=
  s == "true" || s == "false" || s == "True" || s == "False"

/-- Date source text in `YYYY-MM-DD` shape. -/
def isDateString (s : String) : Bool :=
  match s.toList with
  | [y1, y2, y3, y4, '-', m1, m2, '-', d1, d2] =>
      [y1, y2, y3, y4, m1, m2, d1, d2].all Char.isDigit
  | _ => false

/-- Whether a raw scalar's source text is acceptable for a declared type.
Every raw value is acceptable as a string. -/
def parsesAs : DataType → String → Bool
  | .string, _ => true
  | .integer, s => isIntString s
  | .float, s => isFloatString s
  | .date, s => isDateString s
  | .boolean, s => isBoolString s

/-- A coerced scalar cell: either the explicit missing-value marker, or a
value tagged with the data type it was coerced to (the value is kept as its
validated source text; the core never computes with it). -/
inductive CVal
  | missing
  | val (dt : DataType) (s : String)
deriving DecidableEq

/-- Modelled from the spec: per-value coercion to the Field's declared
`data_type`; a value that fails coercion becomes the explicit missing-value
marker rather than raising. -/
def coerce (dt : DataType) (s : String) : CVal :=
  if parsesAs dt s then .val dt s else .missing

/-- A raw attribute-value record as returned by one fetch call. -/
abbrev RawRecord := List (String × String)

/-- A coerced row of the final ResultSet. -/
abbrev Row := List (String × CVal)

/-- The declared type of a named field; a name absent from the catalog is
treated as plain string (its raw text is kept as-is). -/
def fieldType (c : FieldCatalog) (n : String) : DataType :=
  match fcLookup c n with
  | some f => f.data_type
  | none => .string

/-- Modelled from the spec: coercing one record — every scalar value is
coerced to its field's declared data type, independently of the others. -/
def coerceRow (c : FieldCatalog) (r : RawRecord) : Row :=
  r.map (fun p => (p.1, coerce (fieldType c p.1) p.2))

/-- Modelled from the spec: the FeatureFetcher external-collaborator
contract — `count` and paged retrieval `fetch_page(offset, limit)`;
the implementing library is not part of the repository sources. -/
structure Fetcher where
  total : Nat
  page : Nat → Nat → List RawRecord

/-- The honest stub fetcher over a fixed dataset in stable server order:
`fetch_page` returns at most `limit` records starting at `offset`. -/
def listFetcher (data : List RawRecord) : Fetcher :=
  ⟨data.length, fun off lim => (data.drop off).take lim⟩

/-- One recorded invocation of the fetcher collaborator. -/
inductive FetchCall
  | count
  | fetchPage (off lim : Nat)
deriving DecidableEq

/-- Modelled from the spec: the pagination offsets `off, off+P, off+2P, …`
emitted while the offset stays below `total`.  The loop is driven by a fuel
argument so that it is structurally recursive; `total` units of fuel always
suffice because each step advances the offset by `P ≥ 1`. -/
def offsetsFromFuel : Nat → Nat → Nat → Nat → List Nat
  | 0, _, _, _ => []
  | fuel + 1, P, total, off =>
      if 0 < P ∧ off < total then off :: offsetsFromFuel fuel P total (off + P)
      else []

/-- The page offsets of a whole query: `0, P, 2P, …` below `total`. -/
def pageOffsets (P total : Nat) : List Nat :=
  offsetsFromFuel total P total 0

/-- Modelled from the spec: the effective total
`min(count, max_results or +infinity)`. -/
def effTotal (fet : Fetcher) (mr : Option Nat) : Nat :=
  min fet.total (mr.getD fet.total)

/-- The output of one assembly run: the ResultSet rows, the recorded
fetcher invocations, and the number of pages fetched. -/
structure AssembleOut where
  rows : List Row
  calls : List FetchCall
  pagesTotal : Nat
deriving DecidableEq

/-- Modelled from the spec: the ResultAssembler pagination and merge
algorithm — determine the effective total, fetch
`fetch_page(off, min(P, total-off))` for each page offset, coerce every
record and concatenate all pages' rows in fetch order; the implementing
library is not part of the repository sources. -/
def assemble (P : Nat) (c : FieldCatalog) (fet : Fetcher) (req : QueryRequest) :
    AssembleOut :=
  let total := effTotal fet req.max_results
  let offs := pageOffsets P total
  { rows := offs.flatMap (fun off => (fet.page off (min P (total - off))).map (coerceRow c))
  , calls := FetchCall.count :: offs.map (fun off => FetchCall.fetchPage off (min P (total - off)))
  , pagesTotal := offs.length }

/-- Modelled from the spec: the whole search call — validate through
`build`, then assemble; a validation error aborts the query before any
fetcher invocation, so the recorded call list is empty. -/
def search (P : Nat) (c : FieldCatalog) (fet : Fetcher) (pred : Option Pred)
    (mr : Option Nat) (rf : Option (List String)) :
    Except QueryError (List Row) × List FetchCall :=
  match build c pred mr rf with
  | .error e => (.error e, [])
  | .ok req => (.ok (assemble P c fet req).rows, (assemble P c fet req).calls)

/-- Modelled from the spec: the page loop threading an injectable observer
state through the run — after each page the observer is notified with
(pages completed, pages total). -/
def runPagesObs {σ : Type} (c : FieldCatalog) (fet : Fetcher) (P total : Nat)
    (obs : σ → Nat × Nat → σ) :
    List Nat → Nat → Nat → σ → List Row × σ
  | [], _, _, s => ([], s)
  | off :: rest, n, i, s =>
      let page := (fet.page off (min P (total - off))).map (coerceRow c)
      let out := runPagesObs c fet P total obs rest n (i + 1) (obs s (i + 1, n))
      (page ++ out.1, out.2)

/-- Modelled from the spec: assembly with the optional progress observer
attached (progress is pages completed out of pages total). -/
def assembleObs {σ : Type} (obs : σ → Nat × Nat → σ) (s0 : σ) (P : Nat)
    (c : FieldCatalog) (fet : Fetcher) (req : QueryRequest) : List Row × σ :=
  let total := effTotal fet req.max_results
  let offs := pageOffsets P total
  runPagesObs c fet P total obs offs offs.length 0 s0

/-- The sequence of progress notifications `(i+1, n), (i+2, n), …` for `k`
pages starting after `i` already-completed pages. -/
def progressEvents : Nat → Nat → Nat → List (Nat × Nat)
  | _, _, 0 => []
  | i, n, k + 1 => (i + 1, n) :: progressEvents (i + 1) n k

/-- Whether string `s` starts with the string `pre`. -/
def strStartsWith (s pre : String) : Bool :=
  pre.toList.isPrefixOf s.toList

/-- The value of a named column in a coerced row, if present. -/
def rowValue (r : Row) (n : String) : Option CVal :=
  (r.find? (fun p => p.1 == n)).map (fun p => p.2)

/-- The raw value of a named column in a raw record, if present. -/
def rawValue (r : RawRecord) (n : String) : Option String :=
  (r.find? (fun p => p.1 == n)).map (fun p => p.2)

/-- The permanent-key column of the bodemlocatie feature type. -/
def pkeyName : String := "pkey_bodemlocatie"

/-- The base of every DOV permanent URL. -/
def pkeyURLBase : String := "https://www.dov.vlaanderen.be/data/"

/-- A raw permanent-key cell is present and is a DOV permanent URL. -/
def pkeyOkRaw (o : Option String) : Bool :=
  match o with
  | some s => strStartsWith s pkeyURLBase
  | none => false

/-- A coerced permanent-key cell is present, kept as a string, and is a DOV
permanent URL. -/
def pkeyOkRow (o : Option CVal) : Bool :=
  match o with
  | some (.val .string s) => strStartsWith s pkeyURLBase
  | _ => false

/-- The two-field catalog of the KART_PROF scenario: `naam` (string,
queryable) and `x` (float, queryable). -/
def catalogNX : FieldCatalog :=
  [ ⟨"naam", "De unieke naam van de bodemlocatie.", .string, false, true, 1⟩
  , ⟨"x", "X-coordinaat van de bodemlocatie.", .float, false, true, 1⟩ ]

/-- The Aardewerk filter of the notebook: `naam LIKE "KART_PROF_%"`. -/
def predKart : Pred := .cmp .like "naam" (.str "KART_PROF_%")

/-- A synthetic matching dataset of `n` records, each with a `naam` starting
with `KART_PROF_` and a float `x`. -/
def dataKart (n : Nat) : List RawRecord :=
  (List.range n).map (fun i =>
    [("naam", "KART_PROF_" ++ toString i), ("x", "134282.0")])

/-- A catalog with a queryable field, a non-queryable field and a float
field, used to exercise the validation rules. -/
def catalogV : FieldCatalog :=
  [ ⟨"naam", "De unieke naam van de bodemlocatie.", .string, false, true, 1⟩
  , ⟨"geheim", "Intern veld.", .string, false, false, 1⟩
  , ⟨"x", "X-coordinaat van de bodemlocatie.", .float, false, true, 1⟩ ]

/-- A catalog carrying the permanent-key column as a string field. -/
def catalogPkey : FieldCatalog :=
  [ ⟨"pkey_bodemlocatie", "Permanente URL van de bodemlocatie.", .string, false, false, 1⟩
  , ⟨"naam", "De unieke naam van de bodemlocatie.", .string, false, true, 1⟩ ]

/-- Three records with pairwise distinct DOV permanent URLs, as printed by
the notebook. -/
def dataPkey : List RawRecord :=
  [ [("pkey_bodemlocatie", "https://www.dov.vlaanderen.be/data/bodemlocatie/1951-000825"),
     ("naam", "KART_PROF_027W/24")]
  , [("pkey_bodemlocatie", "https://www.dov.vlaanderen.be/data/bodemlocatie/1957-000826"),
     ("naam", "KART_PROF_001E/02")]
  , [("pkey_bodemlocatie", "https://www.dov.vlaanderen.be/data/bodemlocatie/1958-000829"),
     ("naam", "KART_PROF_007W/40")] ]

end DovSearch

namespace DovSearch

/-! Helper lemmas shared by the claim theorems. -/

/-- Splitting a take at `P`: the first `min P t` elements followed by the
next `t - P` elements of the remainder are the first `t` elements. -/
theorem take_min_append {α : Type} (l : List α) (P t : Nat) :
    l.take (min P t) ++ (l.drop P).take (t - P) = l.take t := by
  rcases Nat.le_total P t with h | h
  · rw [Nat.min_eq_left h]
    have ht : t = P + (t - P) := by omega
    conv_rhs => rw [ht]
    rw [List.take_add]
  · rw [Nat.min_eq_right h, Nat.sub_eq_zero_of_le h]
    simp

/-- Concatenating the pages cut by the offset loop reconstructs exactly the
window `take (total - off)` of the dataset after `off`. -/
theorem offsetsFromFuel_flatMap_take {α : Type} (data : List α) (P : Nat)
    (hP : 0 < P) :
    ∀ (fuel total off : Nat), total - off ≤ fuel →
      (offsetsFromFuel fuel P total off).flatMap
          (fun o => (data.drop o).take (min P (total - o)))
        = (data.drop off).take (total - off) := by
  intro fuel
  induction fuel with
  | zero =>
      intro total off hk
      have h0 : total - off = 0 := by omega
      rw [offsetsFromFuel, h0]
      simp
  | succ fuel ih =>
      intro total off hk
      rw [offsetsFromFuel]
      by_cases hlt : off < total
      · rw [if_pos ⟨hP, hlt⟩, List.flatMap_cons,
          ih total (off + P) (by omega),
          show data.drop (off + P) = (data.drop off).drop P by
            rw [List.drop_drop],
          show total - (off + P) = total - off - P by omega,
          take_min_append]
      · rw [if_neg (by omega)]
        have h0 : total - off = 0 := by omega
        rw [h0]
        simp

/-- The rows assembled over the honest list-backed fetcher are exactly the
first `effTotal` dataset records, coerced, in order. -/
theorem assemble_rows_listFetcher (P : Nat) (c : FieldCatalog)
    (data : List RawRecord) (req : QueryRequest) (hP : 0 < P) :
    (assemble P c (listFetcher data) req).rows
      = (data.take (effTotal (listFetcher data) req.max_results)).map (coerceRow c) := by
  have key := offsetsFromFuel_flatMap_take data P hP
      (effTotal (listFetcher data) req.max_results)
      (effTotal (listFetcher data) req.max_results) 0 (by omega)
  simp only [assemble, pageOffsets, listFetcher] at key ⊢
  rw [← List.map_flatMap, key]
  simp

/-- C1: for a request with `max_results` absent, the pagination loop
(offsets `0, P, 2P, …` below `total`, each page of `min(P, total-offset)`
records) concatenated in fetch order yields exactly the whole matching
dataset, coerced, in order — `count(request)` rows, no duplicated and no
missing rows. -/
theorem pagination_complete (P : Nat) (c : FieldCatalog) (data : List RawRecord)
    (pred : Option Pred) (rf : Option (List String)) (hP : 0 < P) :
    (assemble P c (listFetcher data) ⟨pred, none, rf⟩).rows = data.map (coerceRow c)
    ∧ (assemble P c (listFetcher data) ⟨pred, none, rf⟩).rows.length
        = (listFetcher data).total := by
  have h := assemble_rows_listFetcher P c data ⟨pred, none, rf⟩ hP
  constructor
  · rw [h]
    simp [effTotal, listFetcher]
  · rw [h]
    simp [effTotal, listFetcher]

/-- Witness for C1: the synthetic stub of total 25 with page size 10 — the
assembled rows are exactly the 25 coerced records, and the pages have sizes
10, 10, 5. -/
theorem pagination_complete_witness :
    0 < 10
    ∧ ((assemble 10 catalogNX (listFetcher (dataKart 25)) ⟨some predKart, none, none⟩).rows
          = (dataKart 25).map (coerceRow catalogNX)
        ∧ (assemble 10 catalogNX (listFetcher (dataKart 25)) ⟨some predKart, none, none⟩).rows.length
          = (listFetcher (dataKart 25)).total)
    ∧ (pageOffsets 10 25).map (fun off => min 10 (25 - off)) = [10, 10, 5] :=
  ⟨by decide,
   pagination_complete 10 catalogNX (dataKart 25) (some predKart) none (by decide),
   by decide⟩

/-- C2: for a request with `max_results = m`, the assembler's effective
total is `min(count(request), m)` and the assembled ResultSet has exactly
`min(count, m)` rows. -/
theorem cap_enforced (P : Nat) (c : FieldCatalog) (data : List RawRecord)
    (pred : Option Pred) (rf : Option (List String)) (m : Nat) (hP : 0 < P) :
    effTotal (listFetcher data) (some m) = min data.length m
    ∧ (assemble P c (listFetcher data) ⟨pred, some m, rf⟩).rows.length
        = min data.length m := by
  constructor
  · simp [effTotal, listFetcher]
  · rw [assemble_rows_listFetcher P c data ⟨pred, some m, rf⟩ hP]
    simp [effTotal, listFetcher]

/-- Witness for C2: with `max_results = 7` against a true matching total of
25, the assembled ResultSet has exactly 7 rows. -/
theorem cap_enforced_witness :
    0 < 10
    ∧ (effTotal (listFetcher (dataKart 25)) (some 7) = min (dataKart 25).length 7
        ∧ (assemble 10 catalogNX (listFetcher (dataKart 25)) ⟨some predKart, some 7, none⟩).rows.length
          = min (dataKart 25).length 7)
    ∧ (assemble 10 catalogNX (listFetcher (dataKart 25)) ⟨some predKart, some 7, none⟩).rows.length = 7 :=
  ⟨by decide,
   cap_enforced 10 catalogNX (dataKart 25) (some predKart) none 7 (by decide),
   by decide⟩

/-- A boolean search that finds nothing is a `find?` returning `none`. -/
theorem find?_eq_none_of_any_eq_false {α : Type} {l : List α} {p : α → Bool}
    (h : l.any p = false) : l.find? p = none := by
  rw [List.find?_eq_none]
  intro x hx
  exact (List.any_eq_false.mp h) x hx

/-- A boolean search that finds something is a `find?` returning `some`. -/
theorem find?_eq_some_of_any_eq_true {α : Type} {l : List α} {p : α → Bool}
    (h : l.any p = true) : ∃ x, l.find? p = some x := by
  apply Option.isSome_iff_exists.mp
  rw [List.find?_isSome]
  exact List.any_eq_true.mp h

/-- C3: `build` checks its four validation rules in a fixed order and fails
fast with the error of the earliest violated rule: an unknown predicate
field gives `UnknownField`; otherwise a non-queryable field gives
`NotQueryable`; otherwise a literal of the wrong type gives `TypeMismatch`;
otherwise an unknown requested field gives `UnknownField`. -/
theorem build_first_violation_wins (c : FieldCatalog) (pred : Option Pred)
    (mr : Option Nat) (rf : Option (List String)) :
    ((leavesOf pred).any (leafUnknown c) = true →
        isUnknownErr (build c pred mr rf) = true)
    ∧ ((leavesOf pred).any (leafUnknown c) = false →
        (leavesOf pred).any (leafNotQueryable c) = true →
        isNotQueryableErr (build c pred mr rf) = true)
    ∧ ((leavesOf pred).any (leafUnknown c) = false →
        (leavesOf pred).any (leafNotQueryable c) = false →
        (leavesOf pred).any (leafTypeMismatch c) = true →
        isTypeMismatchErr (build c pred mr rf) = true)
    ∧ ((leavesOf pred).any (leafUnknown c) = false →
        (leavesOf pred).any (leafNotQueryable c) = false →
        (leavesOf pred).any (leafTypeMismatch c) = false →
        (rf.getD []).any (fun n => (fcLookup c n).isNone) = true →
        isUnknownErr (build c pred mr rf) = true) := by
  refine ⟨?_, ?_, ?_, ?_⟩
  · intro h1
    obtain ⟨l, hl⟩ := find?_eq_some_of_any_eq_true h1
    unfold build
    rw [hl]
    rfl
  · intro h1 h2
    obtain ⟨l, hl⟩ := find?_eq_some_of_any_eq_true h2
    unfold build
    rw [find?_eq_none_of_any_eq_false h1, hl]
    rfl
  · intro h1 h2 h3
    obtain ⟨l, hl⟩ := find?_eq_some_of_any_eq_true h3
    unfold build
    rw [find?_eq_none_of_any_eq_false h1, find?_eq_none_of_any_eq_false h2, hl]
    rfl
  · intro h1 h2 h3 h4
    obtain ⟨n, hn⟩ := find?_eq_some_of_any_eq_true h4
    unfold build reqUnknown
    rw [find?_eq_none_of_any_eq_false h1, find?_eq_none_of_any_eq_false h2,
      find?_eq_none_of_any_eq_false h3, hn]
    rfl

/-- Witness for C3: a predicate violating rules 2 (non-queryable `geheim`),
3 (string literal against float `x`) and 4 (unknown requested field) at
once — the reported error is `NotQueryable`, the earliest violated rule. -/
theorem build_first_violation_wins_witness :
    ((leavesOf (some (Pred.and (.cmp .eq "geheim" (.str "a")) (.cmp .eq "x" (.str "oops"))))).any
        (leafUnknown catalogV) = false
      ∧ (leavesOf (some (Pred.and (.cmp .eq "geheim" (.str "a")) (.cmp .eq "x" (.str "oops"))))).any
        (leafNotQueryable catalogV) = true)
    ∧ isNotQueryableErr
        (build catalogV
          (some (Pred.and (.cmp .eq "geheim" (.str "a")) (.cmp .eq "x" (.str "oops"))))
          none (some ["zzz"])) = true :=
  ⟨⟨by decide, by decide⟩,
   (build_first_violation_wins catalogV
      (some (Pred.and (.cmp .eq "geheim" (.str "a")) (.cmp .eq "x" (.str "oops"))))
      none (some ["zzz"])).2.1 (by decide) (by decide)⟩

end DovSearch

namespace DovSearch

/-- C4: a predicate referencing a field absent from the catalog makes the
whole search fail with `UnknownField` before any network call: the recorded
fetcher-call trace is empty, and the outcome is identical for any fetcher
and any page size — fully determined by the request content and catalog. -/
theorem unknown_field_no_network (c : FieldCatalog) (pred : Option Pred)
    (mr : Option Nat) (rf : Option (List String)) (P Q : Nat)
    (fet fet' : Fetcher)
    (h : (leavesOf pred).any (leafUnknown c) = true) :
    isUnknownErr (search P c fet pred mr rf).1 = true
    ∧ (search P c fet pred mr rf).2 = []
    ∧ search P c fet pred mr rf = search Q c fet' pred mr rf := by
  obtain ⟨l, hl⟩ := find?_eq_some_of_any_eq_true h
  unfold search build
  rw [hl]
  exact ⟨rfl, rfl, rfl⟩

/-- Witness for C4: the predicate naming `totally_unknown_field` fails with
`UnknownField`, records zero fetcher calls, and does so identically for two
different fetchers and page sizes. -/
theorem unknown_field_no_network_witness :
    (leavesOf (some (Pred.cmp .eq "totally_unknown_field" (.str "v")))).any
        (leafUnknown catalogNX) = true
    ∧ (isUnknownErr (search 10 catalogNX (listFetcher (dataKart 3))
          (some (Pred.cmp .eq "totally_unknown_field" (.str "v"))) none none).1 = true
        ∧ (search 10 catalogNX (listFetcher (dataKart 3))
            (some (Pred.cmp .eq "totally_unknown_field" (.str "v"))) none none).2 = []
        ∧ search 10 catalogNX (listFetcher (dataKart 3))
            (some (Pred.cmp .eq "totally_unknown_field" (.str "v"))) none none
          = search 7 catalogNX (listFetcher [])
              (some (Pred.cmp .eq "totally_unknown_field" (.str "v"))) none none) :=
  ⟨by decide,
   unknown_field_no_network catalogNX
     (some (Pred.cmp .eq "totally_unknown_field" (.str "v"))) none none 10 7
     (listFetcher (dataKart 3)) (listFetcher []) (by decide)⟩

/-- C5: when every predicate leaf names an existing queryable field with a
correctly typed literal (and the requested fields are known), `build`
succeeds and round-trips the predicate and the `max_results` cap into the
QueryRequest unchanged; being a pure function it has no side effects. -/
theorem build_roundtrip (c : FieldCatalog) (pred : Option Pred)
    (mr : Option Nat) (rf : Option (List String))
    (h1 : (leavesOf pred).any (leafUnknown c) = false)
    (h2 : (leavesOf pred).any (leafNotQueryable c) = false)
    (h3 : (leavesOf pred).any (leafTypeMismatch c) = false)
    (h4 : (rf.getD []).any (fun n => (fcLookup c n).isNone) = false) :
    build c pred mr rf = .ok ⟨pred, mr, rf⟩
    ∧ (build c pred mr rf).toOption.map QueryRequest.predicate = some pred
    ∧ (build c pred mr rf).toOption.map QueryRequest.max_results = some mr := by
  have e : build c pred mr rf = .ok ⟨pred, mr, rf⟩ := by
    unfold build reqUnknown
    rw [find?_eq_none_of_any_eq_false h1, find?_eq_none_of_any_eq_false h2,
      find?_eq_none_of_any_eq_false h3, find?_eq_none_of_any_eq_false h4]
  exact ⟨e, by rw [e]; rfl, by rw [e]; rfl⟩

/-- Witness for C5: a conjunction of a pattern match on `naam` and an
ordering test on `x`, with cap 5 and requested fields `[naam]`, builds into
exactly that QueryRequest. -/
theorem build_roundtrip_witness :
    build catalogNX
        (some (Pred.and (.cmp .like "naam" (.str "KART_PROF_%"))
          (.cmp .lt "x" (.flt "100000.0"))))
        (some 5) (some ["naam"])
      = .ok ⟨some (Pred.and (.cmp .like "naam" (.str "KART_PROF_%"))
          (.cmp .lt "x" (.flt "100000.0"))), some 5, some ["naam"]⟩ :=
  (build_roundtrip catalogNX
    (some (Pred.and (.cmp .like "naam" (.str "KART_PROF_%"))
      (.cmp .lt "x" (.flt "100000.0"))))
    (some 5) (some ["naam"])
    (by decide) (by decide) (by decide) (by decide)).1

/-- C6: a scalar value that fails coercion to its field's declared type
becomes the explicit missing-value marker in that row only: the other cells
of the row are coerced independently and the row keeps its field names (so
the call never fails and the row stays intact). -/
theorem coercion_failure_local (c : FieldCatalog) (r1 r2 : RawRecord)
    (f s : String) (h : parsesAs (fieldType c f) s = false) :
    coerceRow c (r1 ++ (f, s) :: r2)
      = coerceRow c r1 ++ (f, CVal.missing) :: coerceRow c r2
    ∧ (coerceRow c (r1 ++ (f, s) :: r2)).map Prod.fst
      = (r1 ++ (f, s) :: r2).map Prod.fst := by
  constructor
  · simp [coerceRow, coerce, h]
  · simp [coerceRow, List.map_map, Function.comp]
    rfl

/-- Witness for C6: the raw value `"N/A"` for the float field `x` coerces to
the missing marker while the `naam` cell of the same row is preserved. -/
theorem coercion_failure_local_witness :
    parsesAs (fieldType catalogNX "x") "N/A" = false
    ∧ (coerceRow catalogNX [("naam", "KART_PROF_1"), ("x", "N/A")]
        = coerceRow catalogNX [("naam", "KART_PROF_1")]
            ++ ("x", CVal.missing) :: coerceRow catalogNX []
        ∧ (coerceRow catalogNX [("naam", "KART_PROF_1"), ("x", "N/A")]).map Prod.fst
          = ([("naam", "KART_PROF_1"), ("x", "N/A")] : RawRecord).map Prod.fst) :=
  ⟨by decide,
   coercion_failure_local catalogNX [("naam", "KART_PROF_1")] [] "x" "N/A" (by decide)⟩

end DovSearch

namespace DovSearch

/-- C7: the KART_PROF scenario — over the catalog with `naam` (string,
queryable) and `x` (float, queryable), the predicate
`naam LIKE "KART_PROF_%"` with `max_results = 10` validates into a
QueryRequest, and against a stub fetcher returning 10 matching records the
assembled ResultSet has exactly 10 rows, each of whose `naam` value starts
with `KART_PROF_`. -/
theorem kart_prof_scenario :
    build catalogNX (some predKart) (some 10) none
      = .ok ⟨some predKart, some 10, none⟩
    ∧ (search 10 catalogNX (listFetcher (dataKart 10)) (some predKart) (some 10) none).1
      = .ok ((dataKart 10).map (coerceRow catalogNX))
    ∧ (assemble 10 catalogNX (listFetcher (dataKart 10)) ⟨some predKart, some 10, none⟩).rows.length
      = 10
    ∧ (assemble 10 catalogNX (listFetcher (dataKart 10)) ⟨some predKart, some 10, none⟩).rows.all
        (fun row =>
          match rowValue row "naam" with
          | some (.val .string s) => strStartsWith s "KART_PROF_"
          | _ => false) = true := by
  refine ⟨rfl, rfl, by decide, by decide⟩

/-- The page loop with an observer threads the state one notification per
page — `(i+1, n)` after the page at position `i` — while producing exactly
the observerless concatenation of coerced pages. -/
theorem runPagesObs_spec {σ : Type} (c : FieldCatalog) (fet : Fetcher)
    (P total : Nat) (obs : σ → Nat × Nat → σ) :
    ∀ (offs : List Nat) (n i : Nat) (s : σ),
      (runPagesObs c fet P total obs offs n i s).1
        = offs.flatMap (fun off => (fet.page off (min P (total - off))).map (coerceRow c))
      ∧ (runPagesObs c fet P total obs offs n i s).2
        = (progressEvents i n offs.length).foldl obs s := by
  intro offs
  induction offs with
  | nil => intro n i s; exact ⟨rfl, rfl⟩
  | cons off rest ih =>
      intro n i s
      constructor
      · simp only [runPagesObs, List.flatMap_cons]
        rw [(ih n (i + 1) (obs s (i + 1, n))).1]
      · simp only [runPagesObs, List.length_cons, progressEvents, List.foldl_cons]
        exact (ih n (i + 1) (obs s (i + 1, n))).2

/-- The per-page notification sequence is `(i+1, n), …, (i+k, n)`. -/
theorem progressEvents_eq_range (n : Nat) :
    ∀ (k i : Nat), progressEvents i n k = (List.range k).map (fun j => (i + j + 1, n)) := by
  intro k
  induction k with
  | zero => intro i; rfl
  | succ k ih =>
      intro i
      rw [progressEvents, ih (i + 1), List.range_succ_eq_map, List.map_cons,
        List.map_map]
      refine congrArg₂ _ (by simp) ?_
      apply List.map_congr_left
      intro j _
      simp [Function.comp]
      omega

/-- C8: progress reporting is a pure side-channel: for every observer and
every initial observer state, assembly with the observer attached produces
exactly the same rows in the same order as assembly without one, and the
observer is notified once after each page with (pages completed, pages
total) — its behaviour never influences any row or the outcome. -/
theorem observer_pure_side_channel {σ : Type} (obs : σ → Nat × Nat → σ)
    (s0 : σ) (P : Nat) (c : FieldCatalog) (fet : Fetcher) (req : QueryRequest) :
    (assembleObs obs s0 P c fet req).1 = (assemble P c fet req).rows
    ∧ (assembleObs obs s0 P c fet req).2
      = ((List.range (assemble P c fet req).pagesTotal).map
          (fun j => (j + 1, (assemble P c fet req).pagesTotal))).foldl obs s0 := by
  have h := runPagesObs_spec c fet P (effTotal fet req.max_results) obs
      (pageOffsets P (effTotal fet req.max_results))
      (pageOffsets P (effTotal fet req.max_results)).length 0 s0
  constructor
  · simp only [assembleObs, assemble]
    exact h.1
  · simp only [assembleObs, assemble]
    rw [h.2, progressEvents_eq_range]
    simp

end DovSearch

namespace DovSearch

/-- C9: catalog key–name coherence — every entry of `get_fields` stores
under key `n` a field record whose `name` is `n`, so iterating the values
and reading each record's name enumerates exactly the keys, in the
catalog's declaration order. -/
theorem get_fields_coherent (c : FieldCatalog) :
    (get_fields c).map (fun p => p.2.name) = (get_fields c).map Prod.fst
    ∧ (get_fields c).map Prod.fst = c.map Field.name
    ∧ ∀ n f, (n, f) ∈ get_fields c → f.name = n := by
  refine ⟨?_, ?_, ?_⟩
  · simp [get_fields, List.map_map, Function.comp]
  · simp [get_fields, List.map_map, Function.comp]
  · intro n f hm
    simp only [get_fields, List.mem_map] at hm
    obtain ⟨g, _, he⟩ := hm
    have h1 : g.name = n := congrArg Prod.fst he
    have h2 : g = f := congrArg Prod.snd he
    rw [← h2]
    exact h1

end DovSearch

namespace DovSearch

/-- Witness for C9: the `naam` entry of the KART_PROF catalog stores a
field record whose `name` is `naam`. -/
theorem get_fields_coherent_witness :
    ("naam", (⟨"naam", "De unieke naam van de bodemlocatie.", .string, false, true, 1⟩ : Field))
        ∈ get_fields catalogNX
    ∧ (⟨"naam", "De unieke naam van de bodemlocatie.", .string, false, true, 1⟩ : Field).name
        = "naam" :=
  ⟨by decide,
   (get_fields_coherent catalogNX).2.2 "naam"
     ⟨"naam", "De unieke naam van de bodemlocatie.", .string, false, true, 1⟩
     (by decide)⟩

/-- Looking a column up in a coerced row is looking it up raw and coercing:
`coerceRow` keeps field names, so `find?` hits the same cell. -/
theorem rowValue_coerceRow (c : FieldCatalog) (n : String) :
    ∀ r : RawRecord,
      rowValue (coerceRow c r) n
        = (rawValue r n).map (fun s => coerce (fieldType c n) s) := by
  intro r
  induction r with
  | nil => rfl
  | cons a t ih =>
      by_cases h : a.1 == n
      · have ha : a.1 = n := eq_of_beq h
        simp [rowValue, rawValue, coerceRow, List.find?, h, ha]
      · simp only [rowValue, rawValue, coerceRow, List.map_cons, List.find?, h] at ih ⊢
        exact ih

end DovSearch

namespace DovSearch

/-- C10: permanent-key addressability — over a dataset whose
`pkey_bodemlocatie` values are pairwise distinct DOV permanent URLs (the
upstream service's permanent-URL contract), every assembled ResultSet keeps
the column pairwise distinct (a set of it preserves the row count) and every
value a string starting with `https://www.dov.vlaanderen.be/data/`, because
pagination introduces no duplicate rows and string cells coerce unchanged. -/
theorem pkey_column_distinct_urls (P : Nat) (c : FieldCatalog)
    (data : List RawRecord) (req : QueryRequest) (hP : 0 < P)
    (hty : fieldType c pkeyName = DataType.string)
    (hnd : (data.map (fun r => rawValue r pkeyName)).Nodup)
    (hurl : (data.map (fun r => rawValue r pkeyName)).all pkeyOkRaw = true) :
    ((assemble P c (listFetcher data) req).rows.map (fun r => rowValue r pkeyName)).Nodup
    ∧ ((assemble P c (listFetcher data) req).rows.map
        (fun r => rowValue r pkeyName)).all pkeyOkRow = true := by
  rw [assemble_rows_listFetcher P c data req hP]
  have hrw : ((data.take (effTotal (listFetcher data) req.max_results)).map
        (coerceRow c)).map (fun r => rowValue r pkeyName)
      = ((data.map (fun r => rawValue r pkeyName)).take
            (effTotal (listFetcher data) req.max_results)).map
          (fun o => o.map (fun s => CVal.val .string s)) := by
    rw [← List.map_take, List.map_map, List.map_map]
    apply List.map_congr_left
    intro r _
    simp only [Function.comp]
    rw [rowValue_coerceRow c pkeyName r, hty]
    cases rawValue r pkeyName <;> simp [coerce, parsesAs]
  rw [hrw]
  have hinj : Function.Injective (fun o : Option String =>
      o.map (fun s => CVal.val .string s)) := by
    apply Option.map_injective
    intro a b h
    simpa using h
  constructor
  · exact (hnd.sublist (List.take_sublist ..)).map hinj
  · rw [List.all_eq_true]
    intro o ho
    obtain ⟨o', ho', rfl⟩ := List.mem_map.mp ho
    have hmem : o' ∈ data.map (fun r => rawValue r pkeyName) :=
      List.mem_of_mem_take ho'
    have hok := (List.all_eq_true.mp hurl) o' hmem
    cases o' with
    | none => simp [pkeyOkRaw] at hok
    | some s => simpa [pkeyOkRow, pkeyOkRaw] using hok

/-- Witness for C10: three notebook permanent URLs, pairwise distinct —
the assembled column is distinct and every value a DOV permanent URL. -/
theorem pkey_column_distinct_urls_witness :
    (0 < 2
      ∧ fieldType catalogPkey pkeyName = DataType.string
      ∧ (dataPkey.map (fun r => rawValue r pkeyName)).Nodup
      ∧ (dataPkey.map (fun r => rawValue r pkeyName)).all pkeyOkRaw = true)
    ∧ (((assemble 2 catalogPkey (listFetcher dataPkey) ⟨none, none, none⟩).rows.map
          (fun r => rowValue r pkeyName)).Nodup
        ∧ ((assemble 2 catalogPkey (listFetcher dataPkey) ⟨none, none, none⟩).rows.map
            (fun r => rowValue r pkeyName)).all pkeyOkRow = true) :=
  ⟨⟨by decide, by decide, by decide, by decide⟩,
   pkey_column_distinct_urls 2 catalogPkey dataPkey ⟨none, none, none⟩
     (by decide) (by decide) (by decide) (by decide)⟩

end DovSearch
